import Mathlib

/-!
The editor model of ewig (`src/ewig/model.hpp`).

A shallow embedding of the value types and of the inline code of `model.hpp`:
the `coord` comparison operators, the constant `tab_width`, and the three
command adapters `edit_command`, `paste_command` and `scroll_command`.

The header only declares the buffer-edit functions (`insert_char`,
`delete_char`, `actual_cursor`, `paste`, `apply_edit`, ...).  The adapters take
`apply_edit` as an argument; the few declared-only functions that a property
is directly about are modelled from the specification and are marked as such.
-/

namespace ewig

/-! ## Data model -/

/-- The C++ alias `using index = int;`.  Comparisons never overflow, so the
integers are used unbounded: every statement over `Int` covers the 32-bit
range. -/
abbrev index := Int

/-- The C++ type `wchar_t`: a character is only stored and compared, never
computed with. -/
abbrev wchar_t := Nat

/-- The alias `using line = immer::flex_vector<wchar_t>;` -/
abbrev line := List wchar_t

/-- The alias `using text = immer::flex_vector<line>;` -/
abbrev text := List line

/-- The value type `struct coord`, fields `index row; index col;`. -/
structure coord where
  row : index
  col : index
  deriving DecidableEq, Repr

/-- The member `coord::operator<`:
`row < other.row || (row == other.row && col < other.col)`. -/
def coord.lt (self other : coord) : Bool :=
  decide (self.row < other.row) ||
    (decide (self.row = other.row) && decide (self.col < other.col))

/-- The member `coord::operator==`: `row == other.row && col == other.col`. -/
def coord.eq (self other : coord) : Bool :=
  decide (self.row = other.row) && decide (self.col = other.col)

/-- The member `coord::operator!=`: `!(*this == other)`. -/
def coord.ne (self other : coord) : Bool :=
  !(coord.eq self other)

/-- The value type `struct file_buffer`. -/
structure file_buffer where
  content : text
  cursor : coord
  scroll : coord
  selection_start : Option coord
  file_name : String
  file_content : text
  deriving DecidableEq, Repr

/-- The value type `struct message`. -/
structure message where
  time_stamp : Int
  content : String
  deriving DecidableEq, Repr

/-- The value type `struct application`.  The types `key_map` and `key_seq`
come from `ewig/keys.hpp`, which the model only stores; they are type
parameters. -/
structure application (key_map key_seq : Type) where
  buffer : file_buffer
  keys : key_map
  input : key_seq
  clipboard : List text
  messages : List message
  deriving DecidableEq, Repr

/-- The constant `constexpr auto tab_width = 8;` -/
def tab_width : Int := 8

/-! ## Evaluation outcomes -/

/-- The ways an evaluation can leave defined behaviour. -/
inductive fault where
  /-- A call of `back()` on an empty `immer::vector`: the precondition
  `size() > 0` is violated and the read has no defined value. -/
  | back_of_empty
  deriving DecidableEq, Repr

/-- The member `immer::vector<T>::back()`: the last element; undefined on an
empty vector. -/
def back {α : Type} (v : List α) : Except fault α :=
  match v.getLast? with
  | some x => Except.ok x
  | none => Except.error fault.back_of_empty

/-- The alias `using command =
std::function<boost::optional<application>(application, coord)>;`
`none` is the absent (termination) result; the `Except` layer records an
evaluation that leaves defined behaviour. -/
abbrev command (key_map key_seq : Type) :=
  application key_map key_seq → coord →
    Except fault (Option (application key_map key_seq))

/-! ## Command adapters -/

section adapters

variable {key_map key_seq : Type}

/-- The adapter `template <typename Fn> command edit_command(Fn fn)`:
`return apply_edit(state, size, fn(state.buffer));`
`R` is the result type of `fn`, which selects the `apply_edit` overload; the
returned `application` converts to a present `boost::optional`. -/
def edit_command {R : Type}
    (apply_edit : application key_map key_seq → coord → R →
      application key_map key_seq)
    (fn : file_buffer → R) : command key_map key_seq :=
  fun state size =>
    Except.ok (some (apply_edit state size (fn state.buffer)))

/-- The adapter `template <typename Fn> command paste_command(Fn fn)`:
`return apply_edit(state, size, fn(state.buffer, state.clipboard.back()));` -/
def paste_command {R : Type}
    (apply_edit : application key_map key_seq → coord → R →
      application key_map key_seq)
    (fn : file_buffer → text → R) : command key_map key_seq :=
  fun state size =>
    match back state.clipboard with
    | Except.ok e => Except.ok (some (apply_edit state size (fn state.buffer e)))
    | Except.error f => Except.error f

/-- The adapter `template <typename Fn> command scroll_command(Fn fn)`:
`state.buffer = fn(state.buffer, wsize); return state;` -/
def scroll_command (fn : file_buffer → coord → file_buffer) :
    command key_map key_seq :=
  fun state wsize =>
    let state := { state with buffer := fn state.buffer wsize }
    Except.ok (some state)

end adapters

/-! ## Declared-only functions, modelled from the specification -/

/-- Modelled from the spec: the buffer invariant of the data model, which the
header does not state: `0 ≤ cursor.row < content.size()` and
`0 ≤ cursor.col ≤ content[cursor.row].size()`. -/
def valid_buffer (buf : file_buffer) : Prop :=
  0 ≤ buf.cursor.row ∧ buf.cursor.row < (buf.content.length : Int) ∧
  0 ≤ buf.cursor.col ∧
  buf.cursor.col ≤ ((buf.content.getD buf.cursor.row.toNat []).length : Int)

instance (buf : file_buffer) : Decidable (valid_buffer buf) := by
  unfold valid_buffer
  exact inferInstance

/-- Modelled from the spec: `actual_cursor` is declared in the header and
defined elsewhere.  It "returns cursor clamped so `col` never exceeds the
current line length". -/
def actual_cursor (buf : file_buffer) : coord :=
  { row := buf.cursor.row
    col := min buf.cursor.col
      ((buf.content.getD buf.cursor.row.toNat []).length : Int) }

/-- Modelled from the spec: `insert_char` is declared in the header and defined
elsewhere.  It inserts the character at the (clamped) cursor of the current
line, moves the cursor "to immediately after the inserted" character and
returns "a buffer with `selection_start` cleared". -/
def insert_char (buf : file_buffer) (value : wchar_t) : file_buffer :=
  let cur := actual_cursor buf
  let ln := buf.content.getD cur.row.toNat []
  { buf with
    content := buf.content.set cur.row.toNat (ln.insertIdx cur.col.toNat value)
    cursor := { row := cur.row, col := cur.col + 1 }
    selection_start := none }

/-- Modelled from the spec: `delete_char` is declared in the header and defined
elsewhere.  It "removes the character left of cursor, joining with the
previous line if at column 0 of a non-first line"; the cursor moves to the
deletion point and the selection is cleared.  At the start of the document
nothing is removed. -/
def delete_char (buf : file_buffer) : file_buffer :=
  let cur := actual_cursor buf
  let ln := buf.content.getD cur.row.toNat []
  if 0 < cur.col then
    { buf with
      content := buf.content.set cur.row.toNat (ln.eraseIdx (cur.col - 1).toNat)
      cursor := { row := cur.row, col := cur.col - 1 }
      selection_start := none }
  else if 0 < cur.row then
    let prev := buf.content.getD (cur.row - 1).toNat []
    { buf with
      content := buf.content.take (cur.row - 1).toNat ++ (prev ++ ln) ::
        buf.content.drop (cur.row.toNat + 1)
      cursor := { row := cur.row - 1, col := (prev.length : Int) }
      selection_start := none }
  else
    { buf with selection_start := none }

section paste

variable {key_map key_seq : Type}

/-- Modelled from the spec: `paste` is declared in the header and defined
elsewhere.  "If clipboard is non-empty, inserts the tail entry's text at the
cursor via `insert_text` and folds through `apply_edit`; if clipboard is
empty, returns `app` unchanged".  The declared-only `apply_edit` and
`insert_text` are arguments. -/
def paste
    (apply_edit : application key_map key_seq → coord → file_buffer →
      application key_map key_seq)
    (insert_text : file_buffer → text → file_buffer)
    (app : application key_map key_seq) (size : coord) :
    application key_map key_seq :=
  match app.clipboard.getLast? with
  | some e => apply_edit app size (insert_text app.buffer e)
  | none => app

end paste

/-! ## Sample values -/

/-- A two-line buffer holding "ab" and "c", cursor after the 'a'. -/
def sample_buffer : file_buffer :=
  { content := [[97, 98], [99]]
    cursor := { row := 0, col := 1 }
    scroll := { row := 0, col := 0 }
    selection_start := none
    file_name := "sample.txt"
    file_content := [[97, 98], [99]] }

/-- An application whose clipboard holds two entries: "x" (older) and "yz"
(most recent). -/
def sample_app : application Unit (List Nat) :=
  { buffer := sample_buffer
    keys := ()
    input := []
    clipboard := [[[120]], [[121, 122]]]
    messages := [] }

/-- A stand-in for the declared-only `apply_edit` on buffers: it stores the
edited buffer and keeps the viewport size as the scroll position, so that the
arguments it received stay visible in the result. -/
def sample_apply_edit (state : application Unit (List Nat)) (size : coord)
    (edit : file_buffer) : application Unit (List Nat) :=
  { state with buffer := { edit with scroll := size } }

/-- A stand-in for a `(Buffer, Document) -> Buffer` function: it replaces the
content by the pasted document. -/
def sample_insert_text (buf : file_buffer) (value : text) : file_buffer :=
  { buf with content := value }

/-! ## The coordinate order -/

theorem coord.lt_iff (a b : coord) :
    a.lt b = true ↔ a.row < b.row ∨ (a.row = b.row ∧ a.col < b.col) := by
  simp [coord.lt]

theorem coord.eq_iff (a b : coord) :
    a.eq b = true ↔ a.row = b.row ∧ a.col = b.col := by
  simp [coord.eq]

theorem coord.lt_eq_cases (ar ac br bc cr cc : Int) :
    ((coord.lt ⟨ar, ac⟩ ⟨br, bc⟩ = true ∧ coord.eq ⟨ar, ac⟩ ⟨br, bc⟩ = false ∧
        coord.lt ⟨br, bc⟩ ⟨ar, ac⟩ = false) ∨
      (coord.lt ⟨ar, ac⟩ ⟨br, bc⟩ = false ∧ coord.eq ⟨ar, ac⟩ ⟨br, bc⟩ = true ∧
        coord.lt ⟨br, bc⟩ ⟨ar, ac⟩ = false) ∨
      (coord.lt ⟨ar, ac⟩ ⟨br, bc⟩ = false ∧ coord.eq ⟨ar, ac⟩ ⟨br, bc⟩ = false ∧
        coord.lt ⟨br, bc⟩ ⟨ar, ac⟩ = true)) ∧
    coord.lt ⟨ar, ac⟩ ⟨ar, ac⟩ = false ∧
    (coord.lt ⟨ar, ac⟩ ⟨br, bc⟩ = true → coord.lt ⟨br, bc⟩ ⟨cr, cc⟩ = true →
      coord.lt ⟨ar, ac⟩ ⟨cr, cc⟩ = true) := by
  simp only [coord.lt, coord.eq, Bool.or_eq_true, Bool.and_eq_true,
    Bool.or_eq_false_iff, Bool.and_eq_false_iff, decide_eq_true_eq,
    decide_eq_false_iff_not, index]
  omega

/-- C1: `operator<` is a strict total order with respect to `operator==`:
exactly one of `a < b`, `a == b`, `b < a` holds, `a < a` never holds, and
`a < b`, `b < c` give `a < c`. -/
theorem coord_lt_strict_total_order (a b c : coord) :
    ((a.lt b = true ∧ a.eq b = false ∧ b.lt a = false) ∨
      (a.lt b = false ∧ a.eq b = true ∧ b.lt a = false) ∨
      (a.lt b = false ∧ a.eq b = false ∧ b.lt a = true)) ∧
    a.lt a = false ∧
    (a.lt b = true → b.lt c = true → a.lt c = true) :=
  coord.lt_eq_cases a.row a.col b.row b.col c.row c.col

/-- C2: `operator<` is the row-major lexicographic order: `a < b` exactly when
`a.row < b.row`, or the rows are equal and `a.col < b.col`; a coord on a
smaller row is less than any coord on a larger row whatever the columns. -/
theorem coord_lt_row_major (a b : coord) :
    (a.lt b = true ↔ a.row < b.row ∨ (a.row = b.row ∧ a.col < b.col)) ∧
    (a.row < b.row → a.lt b = true) := by
  refine ⟨coord.lt_iff a b, fun h => ?_⟩
  rw [coord.lt_iff]
  exact Or.inl h

/-- C3: `operator==` holds exactly when both `row` and `col` are equal, it
coincides with equality of the coord values, it is reflexive, symmetric and
transitive, and `operator!=` is its exact negation. -/
theorem coord_eq_ne (a b c : coord) :
    (a.eq b = true ↔ a.row = b.row ∧ a.col = b.col) ∧
    (a.eq b = true ↔ a = b) ∧
    a.eq a = true ∧
    (a.eq b = true → b.eq a = true) ∧
    (a.eq b = true → b.eq c = true → a.eq c = true) ∧
    (a.ne b = true ↔ a.eq b = false) := by
  have hval : ∀ x y : coord, x.eq y = true ↔ x = y := by
    intro x y
    rw [coord.eq_iff]
    cases x
    cases y
    simp
  refine ⟨coord.eq_iff a b, hval a b, (hval a a).2 rfl, ?_, ?_, ?_⟩
  · intro h
    exact (hval b a).2 ((hval a b).1 h).symm
  · intro h1 h2
    exact (hval a c).2 (((hval a b).1 h1).trans ((hval b c).1 h2))
  · simp [coord.ne]

/-! ## The tab stop -/

/-- C7: `tab_width` is the fixed constant 8. -/
theorem tab_width_eq : tab_width = 8 := rfl

/-! ## The command adapters -/

section adapter_theorems

variable {key_map key_seq : Type}

theorem back_eq_getLast {α : Type} (v : List α) (h : v ≠ []) :
    back v = Except.ok (v.getLast h) := by
  simp [back, List.getLast?_eq_getLast v h]

/-- C4: with a non-empty clipboard, `paste_command(fn)(state, size)` is
`apply_edit(state, size, fn(state.buffer, e))` where `e` is the last element
of `state.clipboard`, whatever older entries come before it. -/
theorem paste_command_uses_last {R : Type}
    (apply_edit : application key_map key_seq → coord → R →
      application key_map key_seq)
    (fn : file_buffer → text → R)
    (state : application key_map key_seq) (size : coord)
    (h : state.clipboard ≠ []) :
    paste_command apply_edit fn state size =
      Except.ok (some (apply_edit state size
        (fn state.buffer (state.clipboard.getLast h)))) := by
  simp [paste_command, back_eq_getLast state.clipboard h]

/-- C4 at `sample_app`, whose clipboard holds "x" and then "yz": the command
pastes "yz". -/
theorem paste_command_uses_last_witness :
    sample_app.clipboard ≠ [] ∧
    paste_command sample_apply_edit sample_insert_text sample_app ⟨24, 80⟩ =
      Except.ok (some (sample_apply_edit sample_app ⟨24, 80⟩
        (sample_insert_text sample_app.buffer [[121, 122]]))) :=
  ⟨by decide,
   paste_command_uses_last sample_apply_edit sample_insert_text sample_app
     ⟨24, 80⟩ (by decide)⟩

/-- C5: with an empty clipboard `paste` returns the application unchanged,
but a command built with `paste_command` does not: it evaluates
`state.clipboard.back()` on the empty vector and has no defined result. -/
theorem paste_command_empty_clipboard {R : Type}
    (apply_edit : application key_map key_seq → coord → file_buffer →
      application key_map key_seq)
    (insert_text : file_buffer → text → file_buffer)
    (apply_edit_r : application key_map key_seq → coord → R →
      application key_map key_seq)
    (fn : file_buffer → text → R)
    (state : application key_map key_seq) (size : coord) :
    paste apply_edit insert_text { state with clipboard := [] } size =
      { state with clipboard := [] } ∧
    paste_command apply_edit_r fn { state with clipboard := [] } size =
      Except.error fault.back_of_empty ∧
    paste_command apply_edit_r fn { state with clipboard := [] } size ≠
      Except.ok (some { state with clipboard := [] }) := by
  refine ⟨rfl, rfl, ?_⟩
  intro h
  cases h

/-- C6: the command adapters never produce the absent result: `edit_command`
and `scroll_command` always return a present application, and so does
`paste_command` whenever the clipboard is non-empty. -/
theorem adapters_return_present {R R' : Type}
    (apply_edit : application key_map key_seq → coord → R →
      application key_map key_seq)
    (apply_edit' : application key_map key_seq → coord → R' →
      application key_map key_seq)
    (efn : file_buffer → R)
    (sfn : file_buffer → coord → file_buffer)
    (pfn : file_buffer → text → R')
    (state : application key_map key_seq) (size : coord) :
    (∃ app, edit_command apply_edit efn state size = Except.ok (some app)) ∧
    (∃ app, scroll_command sfn state size = Except.ok (some app)) ∧
    (state.clipboard ≠ [] →
      ∃ app, paste_command apply_edit' pfn state size = Except.ok (some app)) := by
  refine ⟨⟨_, rfl⟩, ⟨_, rfl⟩, fun h => ?_⟩
  refine ⟨apply_edit' state size (pfn state.buffer (state.clipboard.getLast h)), ?_⟩
  simp [paste_command, back_eq_getLast state.clipboard h]

/-- C6 at `sample_app`: all three adapters return a present application. -/
theorem adapters_return_present_witness :
    sample_app.clipboard ≠ [] ∧
    (∃ app, edit_command sample_apply_edit (fun b => { b with selection_start := none })
      sample_app ⟨24, 80⟩ = Except.ok (some app)) ∧
    (∃ app, scroll_command (fun b wsize => { b with scroll := wsize })
      sample_app ⟨24, 80⟩ = Except.ok (some app)) ∧
    (∃ app, paste_command sample_apply_edit sample_insert_text
      sample_app ⟨24, 80⟩ = Except.ok (some app)) :=
  have h := adapters_return_present sample_apply_edit sample_apply_edit
    (fun b => { b with selection_start := none }) (fun b wsize => { b with scroll := wsize })
    sample_insert_text sample_app ⟨24, 80⟩
  ⟨by decide, h.1, h.2.1, h.2.2 (by decide)⟩

/-- C9: a command built by `edit_command` is `apply_edit(state, size,
fn(state.buffer))`: `fn` is applied to `state.buffer`, and `apply_edit`
receives the original state and the same size. -/
theorem edit_command_eq_apply_edit {R : Type}
    (apply_edit : application key_map key_seq → coord → R →
      application key_map key_seq)
    (fn : file_buffer → R)
    (state : application key_map key_seq) (size : coord) :
    edit_command apply_edit fn state size =
      Except.ok (some (apply_edit state size (fn state.buffer))) := rfl

/-- C10: a command built by `scroll_command` returns the application whose
buffer is `fn(state.buffer, wsize)` and whose keys, input, clipboard and
messages are those of `state`; no `apply_edit` takes part. -/
theorem scroll_command_frame
    (fn : file_buffer → coord → file_buffer)
    (state : application key_map key_seq) (wsize : coord) :
    scroll_command fn state wsize =
      Except.ok (some
        { buffer := fn state.buffer wsize
          keys := state.keys
          input := state.input
          clipboard := state.clipboard
          messages := state.messages }) := rfl

end adapter_theorems

/-! ## Insert then delete -/

theorem set_getElem_same {α : Type} (l : List α) (n : Nat) (h : n < l.length) :
    l.set n l[n] = l := by
  apply List.ext_getElem
  · simp
  · intro i h1 h2
    rw [List.getElem_set]
    split
    · next heq => subst heq; rfl
    · rfl

/-- The round trip on the fields of a buffer.  The column may be stale (past
the end of its line): only the row has to be a row of the content. -/
theorem round_trip_fields (content : text) (row col : Int) (scroll : coord)
    (sel : Option coord) (name : String) (fc : text) (c : wchar_t)
    (h0 : 0 ≤ row) (h1 : row < (content.length : Int)) (h2 : 0 ≤ col) :
    (delete_char (insert_char ⟨content, ⟨row, col⟩, scroll, sel, name, fc⟩ c)).content
      = content ∧
    (delete_char (insert_char ⟨content, ⟨row, col⟩, scroll, sel, name, fc⟩ c)).cursor
      = actual_cursor ⟨content, ⟨row, col⟩, scroll, sel, name, fc⟩ := by
  have hn : row.toNat < content.length := by omega
  have hget : content.getD row.toNat [] = content[row.toNat] :=
    List.getD_eq_getElem content [] hn
  obtain ⟨k, hk⟩ : ∃ k : Int, k = min col (content[row.toNat].length : Int) :=
    ⟨_, rfl⟩
  have hk0 : 0 ≤ k := by
    rw [hk]
    exact le_min h2 (Int.ofNat_nonneg _)
  have hk1 : k ≤ (content[row.toNat].length : Int) := by
    rw [hk]
    exact min_le_right _ _
  have hkn : k.toNat ≤ content[row.toNat].length := by omega
  have hlen : (content[row.toNat].insertIdx k.toNat c).length =
      content[row.toNat].length + 1 := List.length_insertIdx _ _ hkn
  have hn' : row.toNat <
      (content.set row.toNat (content[row.toNat].insertIdx k.toNat c)).length := by
    simpa using hn
  have hget' : (content.set row.toNat
      (content[row.toNat].insertIdx k.toNat c)).getD row.toNat [] =
      content[row.toNat].insertIdx k.toNat c := by
    rw [List.getD_eq_getElem _ [] hn']
    simp
  have hmin : min (k + 1) ((content[row.toNat].length + 1 : Nat) : Int) = k + 1 := by
    apply min_eq_left
    push_cast
    omega
  have hpos : (0 : Int) < k + 1 := by omega
  simp only [delete_char, insert_char, actual_cursor, hget, ← hk, hget', hlen, hmin,
    hpos, if_true, add_sub_cancel_right, List.eraseIdx_insertIdx, List.set_set,
    set_getElem_same content row.toNat hn, and_self]

/-- C8: for every valid buffer `b` and every character `c`,
`delete_char(insert_char(b, c))` has the content of `b` and the cursor
`actual_cursor(b)`. -/
theorem delete_char_insert_char (b : file_buffer) (c : wchar_t)
    (h : valid_buffer b) :
    (delete_char (insert_char b c)).content = b.content ∧
    (delete_char (insert_char b c)).cursor = actual_cursor b :=
  round_trip_fields b.content b.cursor.row b.cursor.col b.scroll
    b.selection_start b.file_name b.file_content c h.1 h.2.1 h.2.2.1

/-- C8 at `sample_buffer`, inserting and deleting 'd' after the 'a' of "ab". -/
theorem delete_char_insert_char_witness :
    valid_buffer sample_buffer ∧
    (insert_char sample_buffer 100).content = [[97, 100, 98], [99]] ∧
    (delete_char (insert_char sample_buffer 100)).content = sample_buffer.content ∧
    (delete_char (insert_char sample_buffer 100)).cursor =
      actual_cursor sample_buffer :=
  ⟨by decide, by decide,
   delete_char_insert_char sample_buffer 100 (by decide)⟩

end ewig
